import Mathlib

/-!
# Power management of the micro:bit v2 interface chip (nRF52820)

A shallow embedding of `source/board/microbitv2/nrf52820/power.c`.

* The C globals and the hardware registers the file touches are the fields of `State`.
* Every source statement of `power_init`, `power_before`, `power_after`, `power_systemoff`
  and `power_wfi` is one constructor of `Stmt`, named after its line in `power.c`;
  `exec` gives its effect.  A function body is the list of its statements, run in order.
* The two interrupt handlers run to completion and are plain functions on `State`.
* Interrupts preempt the main context between two statements: `runI` executes a statement
  list under a schedule that says which hardware events and handler runs occur before each
  statement.
* Each executed statement that calls a collaborator or stores to a variable or register
  appends one `Effect` to `State.trace`.

Register semantics: a write to `INTENSET` ORs the written bits into the enabled set, a write
to `INTENCLR` clears the written bits, reading `INTENSET` returns the enabled set.  The
collaborators (UART, I2C, GPIO layer, USB stack) are external: their calls are recorded in the
trace and leave the fields of `State` alone.
-/

namespace Power

/-! ## Data model -/

/-- Value kept by a `uint8_t` variable after a store of `n`. -/
def u8 (n : Nat) : Nat := n % 256

/-- Value kept by a `uint32_t` variable or a 32-bit register after a store of `n`. -/
def u32 (n : Nat) : Nat := n % 2 ^ 32

/-- Pull configuration of a pin (`nrf_gpio_pin_pull_t`). -/
inductive nrf_gpio_pin_pull_t
  | NRF_GPIO_PIN_NOPULL
  | NRF_GPIO_PIN_PULLDOWN
  | NRF_GPIO_PIN_PULLUP
  deriving DecidableEq

/-- Pin direction passed to `gpio_cfg`. -/
inductive nrf_gpio_pin_dir_t
  | NRF_GPIO_PIN_DIR_INPUT
  deriving DecidableEq

/-- Input-buffer setting passed to `gpio_cfg`. -/
inductive nrf_gpio_pin_input_t
  | NRF_GPIO_PIN_INPUT_CONNECT
  deriving DecidableEq

/-- Drive strength passed to `gpio_cfg`. -/
inductive nrf_gpio_pin_drive_t
  | NRF_GPIO_PIN_S0S1
  deriving DecidableEq

/-- Sense level passed to `gpio_cfg`. -/
inductive gpio_pin_cnf_sense_t
  | GPIO_PIN_CNF_SENSE_High
  | GPIO_PIN_CNF_SENSE_Low
  deriving DecidableEq

/-- Interrupt lines used by `power.c`. -/
inductive IRQn_Type
  | POWER_CLOCK_IRQn
  | GPIOTE_IRQn
  deriving DecidableEq

/-- Modelled from the spec: the enum `main_usb_connect_t` is declared in `main_interface.h`,
which is not among the sources.  The spec describes a tri-state connection indicator
(connected to host / disconnected / other); `power.c` names only `USB_DISCONNECTED`. -/
inductive main_usb_connect_t
  | USB_DISCONNECTED
  | USB_CONNECTED
  | USB_OTHER
  deriving DecidableEq

/-- The enum `power_source_t` of the power monitor, as its integer value. -/
abbrev power_source_t := Nat

/-- Constants of the board and chip headers (`IO_Config.h`, `nrf.h`) that `power.c` uses;
the headers are not among the sources, so the values are parameters. -/
structure Board where
  /-- The pin index `GPIO_IDX(RESET_BUTTON)` in its port. -/
  RESET_BUTTON_IDX : Nat
  RESET_BUTTON_PULL : nrf_gpio_pin_pull_t
  GPIOTE_INTENSET_PORT_Set : Nat
  GPIOTE_INTENSET_PORT_Pos : Nat
  POWER_INTENSET_USBREMOVED_Msk : Nat
  POWER_INTENSET_USBDETECTED_Msk : Nat
  deriving DecidableEq

/-- Integer variables and registers that `power.c` stores to. -/
inductive Loc
  | power_in_wfi
  | power_gpiote_enabled
  | power_gpiote_intenset
  | wake_from_reset
  | wake_from_usb
  | GPIOTE_INTENSET
  | GPIOTE_INTENCLR
  | GPIOTE_EVENTS_PORT
  | POWER_INTENSET
  | POWER_EVENTS_USBDETECTED
  | POWER_EVENTS_USBREMOVED
  | POWER_SYSTEMOFF
  deriving DecidableEq

/-- One entry of the effect trace: a collaborator call or a store, with its arguments. -/
inductive Effect
  | uart_uninitialize
  | uart_initialize
  | gpio_disable_hid_led
  | PORT_OFF
  | PORT_SWD_SETUP
  | i2c_deinitialize
  | i2c_initialize
  | gpio_cfg_input (idx : Nat) (pull : nrf_gpio_pin_pull_t)
  | gpio_cfg (idx : Nat) (dir : nrf_gpio_pin_dir_t) (input : nrf_gpio_pin_input_t)
      (pull : nrf_gpio_pin_pull_t) (drive : nrf_gpio_pin_drive_t) (sense : gpio_pin_cnf_sense_t)
  | NVIC_EnableIRQ (irq : IRQn_Type)
  | NVIC_DisableIRQ (irq : IRQn_Type)
  | WFI
  | USBD_Reset
  | usbd_reset_core
  | store (l : Loc) (v : Nat)
  | store_power_source (v : power_source_t)
  | store_usb_pc_connected (v : Bool)
  | store_usb_state (v : main_usb_connect_t)
  deriving DecidableEq

/-- The globals of `power.c`, the extern globals it writes, and the hardware it touches. -/
structure State where
  /-- The `uint8_t power_in_wfi` of `power.c`. -/
  power_in_wfi : Nat
  /-- The `uint8_t power_gpiote_enabled` of `power.c`. -/
  power_gpiote_enabled : Nat
  /-- The `uint32_t power_gpiote_intenset` of `power.c`. -/
  power_gpiote_intenset : Nat
  wake_from_reset : Nat
  wake_from_usb : Nat
  usb_pc_connected : Bool
  usb_state : main_usb_connect_t
  power_source : power_source_t
  /-- The enabled-interrupt set of NRF_GPIOTE, read back through `INTENSET`. -/
  GPIOTE_INTEN : Nat
  GPIOTE_EVENTS_PORT : Nat
  /-- The enabled-interrupt set of NRF_POWER. -/
  POWER_INTEN : Nat
  POWER_EVENTS_USBDETECTED : Nat
  POWER_EVENTS_USBREMOVED : Nat
  POWER_SYSTEMOFF : Nat
  /-- The `LATCH` register of the port of the reset button, `GPIO_REG(RESET_BUTTON)->LATCH`. -/
  LATCH : Nat
  /-- Enable bit of `GPIOTE_IRQn` at the interrupt controller. -/
  nvic_gpiote : Bool
  /-- Enable bit of `POWER_CLOCK_IRQn` at the interrupt controller. -/
  nvic_power_clock : Bool
  /-- What `pwr_mon_get_power_source()` classifies the supply as at this moment. -/
  pwr_mon : power_source_t
  /-- Effects executed so far, oldest first. -/
  trace : List Effect
  deriving DecidableEq

/-! ## Primitive operations -/

/-- Append one effect to the trace. -/
def State.emit (s : State) (e : Effect) : State :=
  { s with trace := s.trace ++ [e] }

/-- A store of `v` to an integer variable or register. -/
def State.store (s : State) (l : Loc) (v : Nat) : State :=
  match l with
  | .power_in_wfi => { s.emit (.store l (u8 v)) with power_in_wfi := u8 v }
  | .power_gpiote_enabled => { s.emit (.store l (u8 v)) with power_gpiote_enabled := u8 v }
  | .power_gpiote_intenset => { s.emit (.store l (u32 v)) with power_gpiote_intenset := u32 v }
  | .wake_from_reset => { s.emit (.store l (u8 v)) with wake_from_reset := u8 v }
  | .wake_from_usb => { s.emit (.store l (u8 v)) with wake_from_usb := u8 v }
  | .GPIOTE_INTENSET =>
      { s.emit (.store l (u32 v)) with GPIOTE_INTEN := s.GPIOTE_INTEN ||| u32 v }
  | .GPIOTE_INTENCLR =>
      { s.emit (.store l (u32 v)) with GPIOTE_INTEN := s.GPIOTE_INTEN &&& (0xFFFFFFFF ^^^ u32 v) }
  | .GPIOTE_EVENTS_PORT => { s.emit (.store l (u32 v)) with GPIOTE_EVENTS_PORT := u32 v }
  | .POWER_INTENSET =>
      { s.emit (.store l (u32 v)) with POWER_INTEN := s.POWER_INTEN ||| u32 v }
  | .POWER_EVENTS_USBDETECTED =>
      { s.emit (.store l (u32 v)) with POWER_EVENTS_USBDETECTED := u32 v }
  | .POWER_EVENTS_USBREMOVED =>
      { s.emit (.store l (u32 v)) with POWER_EVENTS_USBREMOVED := u32 v }
  | .POWER_SYSTEMOFF => { s.emit (.store l (u32 v)) with POWER_SYSTEMOFF := u32 v }

/-- The CMSIS call `NVIC_GetEnableIRQ`: 1 when the line is enabled, 0 otherwise. -/
def NVIC_GetEnableIRQ (irq : IRQn_Type) (s : State) : Nat :=
  match irq with
  | .POWER_CLOCK_IRQn => if s.nvic_power_clock then 1 else 0
  | .GPIOTE_IRQn => if s.nvic_gpiote then 1 else 0

/-- The CMSIS call `NVIC_EnableIRQ`. -/
def NVIC_EnableIRQ (irq : IRQn_Type) (s : State) : State :=
  match irq with
  | .POWER_CLOCK_IRQn => { s.emit (.NVIC_EnableIRQ irq) with nvic_power_clock := true }
  | .GPIOTE_IRQn => { s.emit (.NVIC_EnableIRQ irq) with nvic_gpiote := true }

/-- The CMSIS call `NVIC_DisableIRQ`. -/
def NVIC_DisableIRQ (irq : IRQn_Type) (s : State) : State :=
  match irq with
  | .POWER_CLOCK_IRQn => { s.emit (.NVIC_DisableIRQ irq) with nvic_power_clock := false }
  | .GPIOTE_IRQn => { s.emit (.NVIC_DisableIRQ irq) with nvic_gpiote := false }

/-- The mask `GPIOTE_INTENSET_PORT_Set << GPIOTE_INTENSET_PORT_Pos` as a 32-bit value. -/
def PORT_Msk (b : Board) : Nat :=
  u32 (b.GPIOTE_INTENSET_PORT_Set <<< b.GPIOTE_INTENSET_PORT_Pos)

/-- The test `GPIO_REG(RESET_BUTTON)->LATCH & (1 << GPIO_IDX(RESET_BUTTON))` of line 197. -/
def reset_button_latched (b : Board) (s : State) : Bool :=
  s.LATCH &&& (1 <<< b.RESET_BUTTON_IDX) != 0

/-! ## Statements of the main context -/

/-- The statements of `power.c` outside the handlers, each named after its source line. -/
inductive Stmt
  | L60 | L62 | L65 | L66
  | L88 | L95 | L98 | L101 | L105 | L106 | L107 | L110 | L118 | L119 | L121 | L122
  | L128 | L131 | L134 | L137 | L144 | L145 | L146
  | L153
  | L160 | L161 | L162
  deriving DecidableEq

/-- Effect of one statement. -/
def exec (b : Board) : Stmt → State → State
  -- power_init
  | .L60, s => s.store .power_in_wfi 0
  | .L62, s => s.emit (.gpio_cfg_input b.RESET_BUTTON_IDX b.RESET_BUTTON_PULL)
  | .L65, s =>
      s.store .POWER_INTENSET
        (b.POWER_INTENSET_USBREMOVED_Msk ||| b.POWER_INTENSET_USBDETECTED_Msk)
  | .L66, s => NVIC_EnableIRQ .POWER_CLOCK_IRQn s
  -- power_before
  | .L88, s => s.emit Effect.uart_uninitialize
  | .L95, s => s.emit .gpio_disable_hid_led
  | .L98, s => s.emit .PORT_OFF
  | .L101, s => s.emit Effect.i2c_deinitialize
  | .L105, s => s.store .power_gpiote_enabled (NVIC_GetEnableIRQ .GPIOTE_IRQn s)
  | .L106, s => s.store .power_gpiote_intenset s.GPIOTE_INTEN
  | .L107, s => s.store .GPIOTE_INTENCLR s.GPIOTE_INTEN
  | .L110, s =>
      s.emit (.gpio_cfg b.RESET_BUTTON_IDX .NRF_GPIO_PIN_DIR_INPUT .NRF_GPIO_PIN_INPUT_CONNECT
        b.RESET_BUTTON_PULL .NRF_GPIO_PIN_S0S1
        (if b.RESET_BUTTON_PULL = .NRF_GPIO_PIN_PULLUP then .GPIO_PIN_CNF_SENSE_Low
         else .GPIO_PIN_CNF_SENSE_High))
  | .L118, s =>
      s.store .GPIOTE_INTENSET
        (s.power_gpiote_intenset |||
          (b.GPIOTE_INTENSET_PORT_Set <<< b.GPIOTE_INTENSET_PORT_Pos))
  | .L119, s => NVIC_EnableIRQ .GPIOTE_IRQn s
  | .L121, s => s.store .wake_from_usb 0
  | .L122, s => s.store .wake_from_reset 0
  -- power_after
  | .L128, s => if s.power_gpiote_enabled = 0 then NVIC_DisableIRQ .GPIOTE_IRQn s else s
  | .L131, s => s.store .GPIOTE_INTENSET s.power_gpiote_intenset
  | .L134, s => s.emit (.gpio_cfg_input b.RESET_BUTTON_IDX b.RESET_BUTTON_PULL)
  | .L137, s => s.emit .PORT_SWD_SETUP
  | .L144, s => s.emit Effect.uart_initialize
  | .L145, s => s.emit Effect.i2c_deinitialize
  | .L146, s => s.emit Effect.i2c_initialize
  -- power_systemoff
  | .L153, s => s.store .POWER_SYSTEMOFF 1
  -- power_wfi
  | .L160, s => s.store .power_in_wfi 1
  | .L161, s => s.emit .WFI
  | .L162, s => s.store .power_in_wfi 0

/-- Run a statement list in order, with no interrupt in between. -/
def run (b : Board) (p : List Stmt) (s : State) : State :=
  p.foldl (fun t st => exec b st t) s

/-- Body of `power_init` (lines 58-67). -/
def power_init_body : List Stmt := [.L60, .L62, .L65, .L66]

/-- Body of `power_before(systemoff)` (lines 80-123). -/
def power_before_body (systemoff : Bool) : List Stmt :=
  [.L88, .L95, .L98] ++ (if systemoff then [.L101] else []) ++
    [.L105, .L106, .L107, .L110, .L118, .L119, .L121, .L122]

/-- Body of `power_after()` (lines 125-147). -/
def power_after_body : List Stmt := [.L128, .L131, .L134, .L137, .L144, .L145, .L146]

/-- Body of `power_systemoff()` (lines 150-155). -/
def power_systemoff_body : List Stmt := power_before_body true ++ [.L153]

/-- Body of `power_wfi()` (lines 157-164). -/
def power_wfi_body : List Stmt :=
  power_before_body false ++ [.L160, .L161, .L162] ++ power_after_body

/-- The call `power_init()`. -/
def power_init (b : Board) (s : State) : State := run b power_init_body s

/-- The call `power_before(systemoff)`, uninterrupted. -/
def power_before (b : Board) (systemoff : Bool) (s : State) : State :=
  run b (power_before_body systemoff) s

/-- The call `power_after()`, uninterrupted. -/
def power_after (b : Board) (s : State) : State := run b power_after_body s

/-- The call `power_systemoff()`, uninterrupted. -/
def power_systemoff (b : Board) (s : State) : State := run b power_systemoff_body s

/-- The call `power_wfi()` when no interrupt handler runs and no event is latched on the way:
the halt of line 161 is taken to return. -/
def power_wfi (b : Board) (s : State) : State := run b power_wfi_body s

/-- The exported `power_down()` (lines 69-72). -/
def power_down (b : Board) (s : State) : State := power_systemoff b s

/-- The exported `power_sleep()` (lines 74-77). -/
def power_sleep (b : Board) (s : State) : State := power_wfi b s

/-! ## Interrupt handlers -/

/-- The handler of the power peripheral (lines 168-191). -/
def POWER_CLOCK_IRQHandler (s : State) : State :=
  let s1 : State :=
    if s.POWER_EVENTS_USBDETECTED ≠ 0 then
      let t : State := s.store .POWER_EVENTS_USBDETECTED 0
      let t : State := { t.emit (.store_power_source t.pwr_mon) with power_source := t.pwr_mon }
      let t : State := if t.power_in_wfi ≠ 0 then t.store .wake_from_usb 1 else t
      { t.emit (.store_usb_pc_connected true) with usb_pc_connected := true }
    else s
  if s1.POWER_EVENTS_USBREMOVED ≠ 0 then
    let t : State := s1.store .POWER_EVENTS_USBREMOVED 0
    let t : State := { t.emit (.store_power_source t.pwr_mon) with power_source := t.pwr_mon }
    let t : State := if t.power_in_wfi ≠ 0 then t.store .wake_from_usb 1 else t
    let t : State := t.emit .USBD_Reset
    let t : State := t.emit .usbd_reset_core
    let t : State := { t.emit (.store_usb_pc_connected false) with usb_pc_connected := false }
    { t.emit (.store_usb_state .USB_DISCONNECTED) with usb_state := .USB_DISCONNECTED }
  else s1

/-- The handler of the GPIOTE peripheral (lines 193-201). -/
def GPIOTE_IRQHandler (b : Board) (s : State) : State :=
  if s.GPIOTE_EVENTS_PORT ≠ 0 then
    let t : State := s.store .GPIOTE_EVENTS_PORT 0
    if t.power_in_wfi ≠ 0 ∧ reset_button_latched b t = true then t.store .wake_from_reset 1
    else t
  else s

/-! ## Interrupts between statements -/

/-- What can happen between two statements of the main context: the hardware latches an
event, the power monitor reading changes, or a handler runs to completion. -/
inductive Act
  /-- VBUS rises: the hardware latches `EVENTS_USBDETECTED`. -/
  | hw_usbdetected
  /-- VBUS falls: the hardware latches `EVENTS_USBREMOVED`. -/
  | hw_usbremoved
  /-- Pins with sensing enabled reach their sense level: the hardware latches `EVENTS_PORT`
  and sets the `LATCH` bits of mask `pins`. -/
  | hw_port (pins : Nat)
  /-- The supply changes and with it the classification of the power monitor. -/
  | hw_pwr_mon (v : power_source_t)
  | POWER_CLOCK_IRQ
  | GPIOTE_IRQ
  deriving DecidableEq

/-- Whether the act is a handler run. -/
def Act.isHandler : Act → Bool
  | .POWER_CLOCK_IRQ => true
  | .GPIOTE_IRQ => true
  | _ => false

/-- Effect of one act. -/
def Act.run (b : Board) : Act → State → State
  | .hw_usbdetected, s => { s with POWER_EVENTS_USBDETECTED := 1 }
  | .hw_usbremoved, s => { s with POWER_EVENTS_USBREMOVED := 1 }
  | .hw_port pins, s => { s with GPIOTE_EVENTS_PORT := 1, LATCH := s.LATCH ||| u32 pins }
  | .hw_pwr_mon v, s => { s with pwr_mon := v }
  | .POWER_CLOCK_IRQ, s => POWER_CLOCK_IRQHandler s
  | .GPIOTE_IRQ, s => GPIOTE_IRQHandler b s

/-- Run a list of acts in order. -/
def runActs (b : Board) (as : List Act) (s : State) : State :=
  as.foldl (fun t a => a.run b t) s

/-- Interleaved execution: the n-th entry of the schedule lists the acts that occur just
before the n-th statement (none when the schedule is shorter). -/
def runI (b : Board) : List Stmt → List (List Act) → State → State
  | [], _, s => s
  | st :: rest, sched, s => runI b rest sched.tail (exec b st (runActs b (sched.headD []) s))

/-- The states an act list passes through while the main context is about to execute
statement `pc`, each with the act that runs in it. -/
def actLog (b : Board) (pc : Stmt) : List Act → State → List (Stmt × Act × State)
  | [], _ => []
  | a :: as, s => (pc, a, s) :: actLog b pc as (a.run b s)

/-- Every act of an interleaved execution with the statement it preempts and the state it
starts in. -/
def irqLog (b : Board) : List Stmt → List (List Act) → State → List (Stmt × Act × State)
  | [], _, _ => []
  | st :: rest, sched, s =>
      actLog b st (sched.headD []) s ++
        irqLog b rest sched.tail (exec b st (runActs b (sched.headD []) s))

/-- The states seen while an act list runs, the first and the last included. -/
def actStates (b : Board) : List Act → State → List State
  | [], s => [s]
  | a :: as, s => s :: actStates b as (a.run b s)

/-- Every state of an interleaved execution, with the statement the main context executes
next (`none` once the body has returned). -/
def snapshots (b : Board) : List Stmt → List (List Act) → State → List (Option Stmt × State)
  | [], _, s => [(none, s)]
  | st :: rest, sched, s =>
      (actStates b (sched.headD []) s).map (fun t => (some st, t)) ++
        snapshots b rest sched.tail (exec b st (runActs b (sched.headD []) s))

/-- The effects appended to the trace between state `s` and the later state `t`. -/
def emitted (s t : State) : List Effect := t.trace.drop s.trace.length

/-! ## Concrete board and states used for evaluation -/

/-- A board with the mask values of the nRF52 headers (PORT is bit 31 of the GPIOTE
interrupt registers, USBDETECTED and USBREMOVED are bits 7 and 8 of those of POWER) and a
pulled-up reset button on pin 6. -/
def board0 : Board :=
  { RESET_BUTTON_IDX := 6
    RESET_BUTTON_PULL := .NRF_GPIO_PIN_PULLUP
    GPIOTE_INTENSET_PORT_Set := 1
    GPIOTE_INTENSET_PORT_Pos := 31
    POWER_INTENSET_USBREMOVED_Msk := 0x100
    POWER_INTENSET_USBDETECTED_Msk := 0x80 }

/-- The state at reset: every variable and register zero, no line enabled. -/
def reset0 : State :=
  { power_in_wfi := 0, power_gpiote_enabled := 0, power_gpiote_intenset := 0
    wake_from_reset := 0, wake_from_usb := 0, usb_pc_connected := false
    usb_state := .USB_DISCONNECTED, power_source := 0
    GPIOTE_INTEN := 0, GPIOTE_EVENTS_PORT := 0, POWER_INTEN := 0
    POWER_EVENTS_USBDETECTED := 0, POWER_EVENTS_USBREMOVED := 0, POWER_SYSTEMOFF := 0
    LATCH := 0, nvic_gpiote := false, nvic_power_clock := false, pwr_mon := 0, trace := [] }

/-- The state after `power_init` at reset. -/
def init0 : State := power_init board0 reset0

/-- The fields that only the main context writes: the flag `power_in_wfi`, the saved GPIOTE
state, the GPIOTE enabled-interrupt set and the enable bit of the GPIOTE line. -/
def core (s : State) : Nat × Nat × Nat × Nat × Bool :=
  (s.power_in_wfi, s.power_gpiote_enabled, s.power_gpiote_intenset, s.GPIOTE_INTEN,
    s.nvic_gpiote)

/-- The value of `power_in_wfi` after a statement, from its value before: only lines 60,
160 and 162 store to it. -/
def inWfiAfter : Stmt → Nat → Nat
  | .L60, _ => 0
  | .L160, _ => 1
  | .L162, _ => 0
  | _, w => w

/-- Check a property of the value of `power_in_wfi` at every program point of a statement
list that is entered with the value `w`. -/
def inWfiOk (good : Option Stmt → Nat → Bool) : List Stmt → Nat → Bool
  | [], w => good none w
  | st :: rest, w => good (some st) w && inWfiOk good rest (inWfiAfter st w)

/-- The value of `power_in_wfi` expected at each program point of `power_wfi`: 1 when the
next statement is the halt (line 161) or the store after it (line 162), 0 at the statements
of `power_after` and on return, and, when `init` says the body was entered with the flag at 0, also 0 at the
statements of `power_before` and at line 160. -/
def inWfiSpec (init : Bool) : Option Stmt → Nat → Bool
  | some .L161, w => w == 1
  | some .L162, w => w == 1
  | none, w => w == 0
  | some .L128, w => w == 0
  | some .L131, w => w == 0
  | some .L134, w => w == 0
  | some .L137, w => w == 0
  | some .L144, w => w == 0
  | some .L145, w => w == 0
  | some .L146, w => w == 0
  | some _, w => !init || w == 0

/-- The handler runs of an interleaved execution that start while the flag `power_in_wfi`
is set, each with the statement it preempts and the state it starts in. -/
def runsInWait (b : Board) (p : List Stmt) (sched : List (List Act)) (s : State) :
    List (Stmt × Act × State) :=
  (irqLog b p sched s).filter (fun e => e.2.1.isHandler && e.2.2.power_in_wfi != 0)

/-- A USB event is latched: the test of line 170 or that of line 179 succeeds. -/
def usbEventLatched (s : State) : Bool :=
  s.POWER_EVENTS_USBDETECTED != 0 || s.POWER_EVENTS_USBREMOVED != 0

/-- A port event is latched together with the latch bit of the reset button: the tests of
lines 195 and 197 on the hardware succeed. -/
def resetEventLatched (b : Board) (s : State) : Bool :=
  s.GPIOTE_EVENTS_PORT != 0 && reset_button_latched b s

/-- A schedule for `power_wfi` with no interrupt before line 162 and the acts `as` between
the halt of line 161 and the store of line 162: the acts that wake the processor. -/
def wokenBy (as : List Act) : List (List Act) := List.replicate 13 [] ++ [as]

/-- The state after `power_init` with both wake flags left set by an earlier cycle. -/
def stale0 : State := { init0 with wake_from_reset := 1, wake_from_usb := 1 }

/-! ## Arithmetic of the 32-bit registers -/

theorem u32_of_lt {m : Nat} (h : m < 2 ^ 32) : u32 m = m := Nat.mod_eq_of_lt h

theorem u32_lt (m : Nat) : u32 m < 2 ^ 32 := Nat.mod_lt _ (by decide)

theorem u32_or (a c : Nat) : u32 (a ||| c) = u32 a ||| u32 c := by
  apply Nat.eq_of_testBit_eq
  intro i
  simp only [u32, Nat.testBit_mod_two_pow, Nat.testBit_or]
  cases decide (i < 32) <;> simp

theorem testBit_of_lt_u32 {m : Nat} (h : m < 2 ^ 32) {i : Nat} (hi : 32 ≤ i) :
    m.testBit i = false :=
  Nat.testBit_lt_two_pow (lt_of_lt_of_le h (Nat.pow_le_pow_right (by decide) hi))

theorem or_absorb (m p : Nat) : m ||| (p ||| m) = m ||| p := by
  apply Nat.eq_of_testBit_eq
  intro i
  simp only [Nat.testBit_or]
  cases m.testBit i <;> cases p.testBit i <;> rfl

/-- Clearing, in a 32-bit register, every bit that is set leaves zero. -/
theorem clear_self {m : Nat} (h : m < 2 ^ 32) : m &&& (0xFFFFFFFF ^^^ m) = 0 := by
  apply Nat.eq_of_testBit_eq
  intro i
  have h32 : (0xFFFFFFFF : Nat) = 2 ^ 32 - 1 := by norm_num
  rw [h32]
  simp only [Nat.testBit_and, Nat.testBit_xor, Nat.testBit_two_pow_sub_one, Nat.zero_testBit]
  by_cases hi : i < 32
  · cases m.testBit i <;> simp [hi]
  · simp [testBit_of_lt_u32 h (Nat.le_of_not_lt hi)]

/-! ## Sequential behaviour of the wait-entry and wait-exit sequences -/

theorem power_before_GPIOTE_INTEN (b : Board) (systemoff : Bool) (s : State)
    (hm : s.GPIOTE_INTEN < 2 ^ 32) :
    (power_before b systemoff s).GPIOTE_INTEN = s.GPIOTE_INTEN ||| PORT_Msk b := by
  cases systemoff <;>
    simp [power_before, run, power_before_body, exec, State.store, State.emit, NVIC_EnableIRQ,
      NVIC_GetEnableIRQ, PORT_Msk, u32_or, u32_of_lt hm, clear_self hm, u32_of_lt (u32_lt _)]

/-! ## Interrupts leave the state of the main context alone -/

theorem core_POWER_CLOCK_IRQHandler (s : State) : core (POWER_CLOCK_IRQHandler s) = core s := by
  simp only [POWER_CLOCK_IRQHandler]
  split_ifs <;> simp [core, State.store, State.emit]

theorem core_GPIOTE_IRQHandler (b : Board) (s : State) :
    core (GPIOTE_IRQHandler b s) = core s := by
  simp only [GPIOTE_IRQHandler]
  split_ifs <;> simp [core, State.store, State.emit]

theorem core_act (b : Board) (a : Act) (s : State) : core (a.run b s) = core s := by
  cases a with
  | POWER_CLOCK_IRQ => exact core_POWER_CLOCK_IRQHandler s
  | GPIOTE_IRQ => exact core_GPIOTE_IRQHandler b s
  | _ => simp [Act.run, core]

theorem core_runActs (b : Board) (as : List Act) (s : State) :
    core (runActs b as s) = core s := by
  induction as generalizing s with
  | nil => rfl
  | cons a as ih =>
    have h : runActs b (a :: as) s = runActs b as (a.run b s) := rfl
    rw [h, ih, core_act]

theorem core_exec (b : Board) (st : Stmt) {s t : State} (h : core s = core t) :
    core (exec b st s) = core (exec b st t) := by
  simp only [core, Prod.mk.injEq] at h
  obtain ⟨h1, h2, h3, h4, h5⟩ := h
  cases st
  case L128 =>
    simp only [exec, h2]
    split_ifs <;> simp [core, NVIC_DisableIRQ, State.emit, h1, h2, h3, h4, h5]
  all_goals
    simp [exec, core, State.store, State.emit, NVIC_EnableIRQ, NVIC_GetEnableIRQ,
      h1, h2, h3, h4, h5]

theorem core_run (b : Board) (p : List Stmt) {s t : State} (h : core s = core t) :
    core (run b p s) = core (run b p t) := by
  induction p generalizing s t with
  | nil => exact h
  | cons st rest ih =>
    have hs : run b (st :: rest) s = run b rest (exec b st s) := rfl
    have ht : run b (st :: rest) t = run b rest (exec b st t) := rfl
    rw [hs, ht]
    exact ih (core_exec b st h)

/-- Whatever the interrupts do between the statements, the main-context fields end as in the
run without interrupts. -/
theorem core_runI (b : Board) (p : List Stmt) (sched : List (List Act)) (s : State) :
    core (runI b p sched s) = core (run b p s) := by
  induction p generalizing s sched with
  | nil => rfl
  | cons st rest ih =>
    have hs : run b (st :: rest) s = run b rest (exec b st s) := rfl
    rw [hs]
    simp only [runI]
    rw [ih]
    exact core_run b rest (core_exec b st (core_runActs b _ s))

theorem run_append (b : Board) (p q : List Stmt) (s : State) :
    run b (p ++ q) s = run b q (run b p s) := by
  simp [run, List.foldl_append]

theorem power_wfi_eq (b : Board) (s : State) :
    power_wfi b s =
      power_after b (exec b .L162 (exec b .L161 (exec b .L160 (power_before b false s)))) := by
  simp only [power_wfi, power_wfi_body, power_after, power_before, run_append]
  rfl

/-- For every schedule of interrupts, a wait cycle ends with the GPIOTE enabled-interrupt
set equal to the initial set with the PORT bit added. -/
theorem power_wfi_GPIOTE_INTEN (b : Board) (sched : List (List Act)) (s : State)
    (hm : s.GPIOTE_INTEN < 2 ^ 32) :
    (runI b power_wfi_body sched s).GPIOTE_INTEN = s.GPIOTE_INTEN ||| PORT_Msk b := by
  have h := congrArg (fun c => c.2.2.2.1) (core_runI b power_wfi_body sched s)
  simp only [core] at h
  rw [h]
  simp [run, power_wfi_body, power_before_body, power_after_body, exec, State.store,
    State.emit, NVIC_EnableIRQ, NVIC_DisableIRQ, NVIC_GetEnableIRQ, PORT_Msk, u32_or,
    u32_of_lt hm, clear_self hm, u32_of_lt (u32_lt _), apply_ite State.GPIOTE_INTEN,
    apply_ite State.power_gpiote_intenset, Nat.or_assoc, or_absorb]

/-! ## The GPIOTE interrupt state across a wait cycle -/

/-- C1, evaluated on the code: from the state that `power_init` leaves at reset, where the
GPIOTE enabled-interrupt set is empty, `power_before(false)` followed by `power_after()`,
and likewise `power_sleep()`, end with the PORT bit (bit 31) enabled: the write of the saved
mask to `INTENSET` at line 131 only adds bits, so the set before the wait is not restored. -/
theorem power_sleep_leaves_PORT_enabled :
    init0.GPIOTE_INTEN = 0 ∧
      (power_after board0 (power_before board0 false init0)).GPIOTE_INTEN = 0x80000000 ∧
      (power_sleep board0 init0).GPIOTE_INTEN = 0x80000000 := by
  decide

/-- C2: the enable state of the GPIOTE line at the interrupt controller is restored.
`power_before(false)` records the state in `power_gpiote_enabled` (1 for enabled, 0 for
disabled) and enables the line; `power_after()` disables the line exactly when the recorded
value is 0, that is exactly when the line was disabled at the start; so `power_before(false)`
followed by `power_after()` ends with the initial enable state, and so does a whole wait
cycle under every schedule of interrupts. -/
theorem gpiote_line_enable_restored (b : Board) (s : State) :
    (power_after b (power_before b false s)).nvic_gpiote = s.nvic_gpiote ∧
      (power_before b false s).power_gpiote_enabled = (if s.nvic_gpiote then 1 else 0) ∧
      (power_before b false s).nvic_gpiote = true ∧
      (∀ t : State, (power_after b t).nvic_gpiote =
        (if t.power_gpiote_enabled = 0 then false else t.nvic_gpiote)) ∧
      (∀ t : State, Effect.NVIC_DisableIRQ .GPIOTE_IRQn ∈ emitted t (power_after b t) ↔
        t.power_gpiote_enabled = 0) ∧
      (Effect.NVIC_DisableIRQ .GPIOTE_IRQn ∈
          emitted (power_before b false s) (power_after b (power_before b false s)) ↔
        s.nvic_gpiote = false) ∧
      (∀ sched : List (List Act), (runI b power_wfi_body sched s).nvic_gpiote = s.nvic_gpiote) := by
  have hdis : ∀ t : State, Effect.NVIC_DisableIRQ .GPIOTE_IRQn ∈ emitted t (power_after b t) ↔
      t.power_gpiote_enabled = 0 := by
    intro t
    by_cases h : t.power_gpiote_enabled = 0 <;>
      simp [emitted, power_after, run, power_after_body, exec, State.store, State.emit,
        NVIC_DisableIRQ, h]
  refine ⟨?_, ?_, ?_, ?_, hdis, ?_, ?_⟩
  · cases h : s.nvic_gpiote <;>
      simp [power_after, power_before, run, power_before_body, power_after_body, exec,
        State.store, State.emit, NVIC_EnableIRQ, NVIC_DisableIRQ, NVIC_GetEnableIRQ, h, u8]
  · cases h : s.nvic_gpiote <;>
      simp [power_before, run, power_before_body, exec, State.store, State.emit,
        NVIC_EnableIRQ, NVIC_GetEnableIRQ, h, u8]
  · simp [power_before, run, power_before_body, exec, State.store, State.emit,
      NVIC_EnableIRQ, NVIC_GetEnableIRQ]
  · intro t
    by_cases h : t.power_gpiote_enabled = 0 <;>
      simp [power_after, run, power_after_body, exec, State.store, State.emit,
        NVIC_DisableIRQ, h]
  · rw [hdis]
    cases h : s.nvic_gpiote <;>
      simp [power_before, run, power_before_body, exec, State.store, State.emit,
        NVIC_EnableIRQ, NVIC_GetEnableIRQ, h, u8]
  · intro sched
    have h := congrArg (fun c => c.2.2.2.2) (core_runI b power_wfi_body sched s)
    simp only [core] at h
    rw [h]
    cases h : s.nvic_gpiote <;>
      simp [run, power_wfi_body, power_before_body, power_after_body, exec, State.store,
        State.emit, NVIC_EnableIRQ, NVIC_DisableIRQ, NVIC_GetEnableIRQ, h, u8]

/-- C10: for every initial GPIOTE enabled-interrupt set m (a 32-bit value) and either value
of `systemoff`, when `power_before` returns the saved mask `power_gpiote_intenset` is m, the
enabled set is m with the PORT mask added (so every source enabled before the call is still
enabled), the GPIOTE line is enabled at the interrupt controller and both wake flags are 0. -/
theorem power_before_leaves_sources_armed (b : Board) (systemoff : Bool) (s : State)
    (hm : s.GPIOTE_INTEN < 2 ^ 32) :
    (power_before b systemoff s).power_gpiote_intenset = s.GPIOTE_INTEN ∧
      (power_before b systemoff s).GPIOTE_INTEN = s.GPIOTE_INTEN ||| PORT_Msk b ∧
      (∀ i : Nat, s.GPIOTE_INTEN.testBit i = true →
        (power_before b systemoff s).GPIOTE_INTEN.testBit i = true) ∧
      (power_before b systemoff s).nvic_gpiote = true ∧
      (power_before b systemoff s).wake_from_usb = 0 ∧
      (power_before b systemoff s).wake_from_reset = 0 := by
  have hI := power_before_GPIOTE_INTEN b systemoff s hm
  refine ⟨?_, hI, ?_, ?_, ?_, ?_⟩
  · cases systemoff <;>
      simp [power_before, run, power_before_body, exec, State.store, State.emit,
        NVIC_EnableIRQ, NVIC_GetEnableIRQ, u32_of_lt hm]
  · intro i hi
    rw [hI, Nat.testBit_or, hi]
    rfl
  · cases systemoff <;>
      simp [power_before, run, power_before_body, exec, State.store, State.emit,
        NVIC_EnableIRQ, NVIC_GetEnableIRQ]
  · cases systemoff <;>
      simp [power_before, run, power_before_body, exec, State.store, State.emit,
        NVIC_EnableIRQ, NVIC_GetEnableIRQ, u8]
  · cases systemoff <;>
      simp [power_before, run, power_before_body, exec, State.store, State.emit,
        NVIC_EnableIRQ, NVIC_GetEnableIRQ, u8]

/-- Witness of C10 at the state after `power_init`, entering the wait mode. -/
theorem power_before_leaves_sources_armed_witness :
    init0.GPIOTE_INTEN < 2 ^ 32 ∧
      (power_before board0 false init0).power_gpiote_intenset = init0.GPIOTE_INTEN ∧
      (power_before board0 false init0).GPIOTE_INTEN = init0.GPIOTE_INTEN ||| PORT_Msk board0 :=
  ⟨by decide, (power_before_leaves_sources_armed board0 false init0 (by decide)).1,
    (power_before_leaves_sources_armed board0 false init0 (by decide)).2.1⟩

/-! ## The interrupt handlers -/

theorem reset_button_latched_iff (b : Board) (s : State) :
    reset_button_latched b s = true ↔ s.LATCH.testBit b.RESET_BUTTON_IDX = true := by
  simp only [reset_button_latched, bne_iff_ne, ne_eq, Nat.one_shiftLeft]
  constructor
  · intro h
    by_contra hb
    apply h
    apply Nat.eq_of_testBit_eq
    intro j
    rw [Nat.testBit_and, Nat.testBit_two_pow, Nat.zero_testBit]
    by_cases hj : b.RESET_BUTTON_IDX = j
    · subst hj
      simp [Bool.eq_false_iff.mpr hb]
    · simp [hj]
  · intro h h0
    have h1 : (s.LATCH &&& 2 ^ b.RESET_BUTTON_IDX).testBit b.RESET_BUTTON_IDX = true := by
      rw [Nat.testBit_and, Nat.testBit_two_pow, h]
      simp
    rw [h0, Nat.zero_testBit] at h1
    exact Bool.noConfusion h1

/-- C4: in a state with `power_in_wfi = 0`, whatever events are latched, neither handler
changes `wake_from_usb` or `wake_from_reset`. -/
theorem handlers_set_no_wake_flag_outside_wait (b : Board) (s : State)
    (h : s.power_in_wfi = 0) :
    (POWER_CLOCK_IRQHandler s).wake_from_usb = s.wake_from_usb ∧
      (POWER_CLOCK_IRQHandler s).wake_from_reset = s.wake_from_reset ∧
      (GPIOTE_IRQHandler b s).wake_from_usb = s.wake_from_usb ∧
      (GPIOTE_IRQHandler b s).wake_from_reset = s.wake_from_reset := by
  refine ⟨?_, ?_, ?_, ?_⟩
  · simp only [POWER_CLOCK_IRQHandler]
    split_ifs <;> simp_all [State.store, State.emit]
  · simp only [POWER_CLOCK_IRQHandler]
    split_ifs <;> simp_all [State.store, State.emit]
  · simp only [GPIOTE_IRQHandler]
    split_ifs <;> simp_all [State.store, State.emit]
  · simp only [GPIOTE_IRQHandler]
    split_ifs <;> simp_all [State.store, State.emit]

/-- Witness of C4: after `power_init`, with a USB event, a port event and the latch bit of
the reset button all latched, the handlers leave both wake flags as they were. -/
theorem handlers_set_no_wake_flag_outside_wait_witness :
    (runActs board0 [.hw_usbdetected, .hw_usbremoved, .hw_port 0x40] init0).power_in_wfi = 0 ∧
      (POWER_CLOCK_IRQHandler
        (runActs board0 [.hw_usbdetected, .hw_usbremoved, .hw_port 0x40] init0)).wake_from_usb
        = (runActs board0 [.hw_usbdetected, .hw_usbremoved, .hw_port 0x40] init0).wake_from_usb ∧
      (GPIOTE_IRQHandler board0
        (runActs board0 [.hw_usbdetected, .hw_usbremoved, .hw_port 0x40] init0)).wake_from_reset
        = (runActs board0 [.hw_usbdetected, .hw_usbremoved, .hw_port 0x40]
            init0).wake_from_reset :=
  ⟨by decide,
    (handlers_set_no_wake_flag_outside_wait board0
      (runActs board0 [.hw_usbdetected, .hw_usbremoved, .hw_port 0x40] init0) (by decide)).1,
    (handlers_set_no_wake_flag_outside_wait board0
      (runActs board0 [.hw_usbdetected, .hw_usbremoved, .hw_port 0x40] init0)
      (by decide)).2.2.2⟩

/-- C9: after `GPIOTE_IRQHandler`, `EVENTS_PORT` is 0, and `wake_from_reset` is 1 exactly
when it was 1 before or the port event was latched while the flag `power_in_wfi` was set and
the latch bit of the reset button was set; the flag is tested for being non-zero, which for
the values 0 and 1 it ever holds is being 1.  A port event of another pin (latch bit of the
reset button clear) leaves `wake_from_reset` as it was, and `wake_from_usb` never changes. -/
theorem GPIOTE_IRQHandler_tests_reset_latch (b : Board) (s : State) :
    (GPIOTE_IRQHandler b s).GPIOTE_EVENTS_PORT = 0 ∧
      ((GPIOTE_IRQHandler b s).wake_from_reset = 1 ↔
        s.wake_from_reset = 1 ∨
          (s.GPIOTE_EVENTS_PORT ≠ 0 ∧ s.power_in_wfi ≠ 0 ∧
            s.LATCH.testBit b.RESET_BUTTON_IDX = true)) ∧
      (s.power_in_wfi ≤ 1 →
        ((GPIOTE_IRQHandler b s).wake_from_reset = 1 ↔
          s.wake_from_reset = 1 ∨
            (s.GPIOTE_EVENTS_PORT ≠ 0 ∧ s.power_in_wfi = 1 ∧
              s.LATCH.testBit b.RESET_BUTTON_IDX = true))) ∧
      (s.LATCH.testBit b.RESET_BUTTON_IDX = false →
        (GPIOTE_IRQHandler b s).wake_from_reset = s.wake_from_reset) ∧
      (GPIOTE_IRQHandler b s).wake_from_usb = s.wake_from_usb := by
  have hl := reset_button_latched_iff b s
  have hgen : (GPIOTE_IRQHandler b s).wake_from_reset = 1 ↔
      s.wake_from_reset = 1 ∨
        (s.GPIOTE_EVENTS_PORT ≠ 0 ∧ s.power_in_wfi ≠ 0 ∧
          s.LATCH.testBit b.RESET_BUTTON_IDX = true) := by
    rw [← hl]
    simp only [GPIOTE_IRQHandler]
    split_ifs with h1 h2
    · have h3 : s.power_in_wfi ≠ 0 ∧ reset_button_latched b s = true := by
        simpa [State.store, State.emit, reset_button_latched] using h2
      simp [State.store, State.emit, u8, h1, h3.1, h3.2]
    · have h3 : ¬ (s.power_in_wfi ≠ 0 ∧ reset_button_latched b s = true) := by
        simpa [State.store, State.emit, reset_button_latched] using h2
      simp only [State.store, State.emit]
      constructor
      · intro h
        exact Or.inl h
      · rintro (h | ⟨_, h4, h5⟩)
        · exact h
        · exact absurd ⟨h4, h5⟩ h3
    · simp [h1]
  refine ⟨?_, hgen, ?_, ?_, ?_⟩
  · simp only [GPIOTE_IRQHandler]
    split_ifs with h1 h2
    · simp [State.store, State.emit, u8, u32]
    · simp [State.store, State.emit, u32]
    · simpa using h1
  · intro hle
    rw [hgen]
    have h01 : s.power_in_wfi ≠ 0 ↔ s.power_in_wfi = 1 := by omega
    rw [h01]
  · intro hclear
    have hnl : ¬ reset_button_latched b s = true := by
      rw [hl, hclear]
      exact Bool.noConfusion
    simp only [GPIOTE_IRQHandler]
    split_ifs with h1 h2
    · exact absurd (by simpa [State.store, State.emit, reset_button_latched] using h2.2) hnl
    · simp [State.store, State.emit]
    · rfl
  · simp only [GPIOTE_IRQHandler]
    split_ifs <;> simp [State.store, State.emit]

/-- Witness of C9: while halted, a port event of pin 3 (not the reset button, pin 6) is
cleared and records no reset-button wake. -/
theorem GPIOTE_IRQHandler_tests_reset_latch_witness :
    (exec board0 .L160 init0).power_in_wfi ≤ 1 ∧
      (GPIOTE_IRQHandler board0
        (Act.run board0 (.hw_port 0x8) (exec board0 .L160 init0))).GPIOTE_EVENTS_PORT = 0 ∧
      (GPIOTE_IRQHandler board0
        (Act.run board0 (.hw_port 0x8) (exec board0 .L160 init0))).wake_from_reset = 0 :=
  ⟨by decide,
    (GPIOTE_IRQHandler_tests_reset_latch board0
      (Act.run board0 (.hw_port 0x8) (exec board0 .L160 init0))).1,
    ((GPIOTE_IRQHandler_tests_reset_latch board0
      (Act.run board0 (.hw_port 0x8) (exec board0 .L160 init0))).2.2.2.1 (by decide)).trans
      (by decide)⟩

theorem emitted_append (s t : State) (es : List Effect) (h : t.trace = s.trace ++ es) :
    emitted s t = es := by
  simp [emitted, h]

/-- C6: with `EVENTS_USBREMOVED` latched and `EVENTS_USBDETECTED` not, the effects of
`POWER_CLOCK_IRQHandler` are, in order and once each: clear `EVENTS_USBREMOVED`, assign
`power_source` from `pwr_mon_get_power_source()`, (only when the flag `power_in_wfi` is set:
store 1 to `wake_from_usb`,) `USBD_Reset()`, `usbd_reset_core()`, `usb_pc_connected = false`,
`usb_state = USB_DISCONNECTED`; the final state has `usb_pc_connected = false` and
`usb_state = USB_DISCONNECTED` whatever they were and whatever `power_in_wfi` is. -/
theorem usb_removed_side_effects (s : State) (hrem : s.POWER_EVENTS_USBREMOVED ≠ 0)
    (hdet : s.POWER_EVENTS_USBDETECTED = 0) :
    emitted s (POWER_CLOCK_IRQHandler s) =
        [Effect.store .POWER_EVENTS_USBREMOVED 0, .store_power_source s.pwr_mon] ++
          (if s.power_in_wfi ≠ 0 then [Effect.store .wake_from_usb 1] else []) ++
          [Effect.USBD_Reset, .usbd_reset_core, .store_usb_pc_connected false,
            .store_usb_state .USB_DISCONNECTED] ∧
      (emitted s (POWER_CLOCK_IRQHandler s)).filter
          (fun e => decide (e ≠ Effect.store .wake_from_usb 1)) =
        [Effect.store .POWER_EVENTS_USBREMOVED 0, .store_power_source s.pwr_mon,
          .USBD_Reset, .usbd_reset_core, .store_usb_pc_connected false,
          .store_usb_state .USB_DISCONNECTED] ∧
      (POWER_CLOCK_IRQHandler s).usb_pc_connected = false ∧
      (POWER_CLOCK_IRQHandler s).usb_state = .USB_DISCONNECTED ∧
      (POWER_CLOCK_IRQHandler s).POWER_EVENTS_USBREMOVED = 0 ∧
      (POWER_CLOCK_IRQHandler s).power_source = s.pwr_mon := by
  have ht : (POWER_CLOCK_IRQHandler s).trace = s.trace ++
      ([Effect.store .POWER_EVENTS_USBREMOVED 0, .store_power_source s.pwr_mon] ++
        (if s.power_in_wfi ≠ 0 then [Effect.store .wake_from_usb 1] else []) ++
        [Effect.USBD_Reset, .usbd_reset_core, .store_usb_pc_connected false,
          .store_usb_state .USB_DISCONNECTED]) := by
    by_cases hw : s.power_in_wfi = 0 <;>
      simp [POWER_CLOCK_IRQHandler, State.store, State.emit, hrem, hdet, hw, u8, u32]
  have he := emitted_append s _ _ ht
  refine ⟨he, ?_, ?_, ?_, ?_, ?_⟩
  · rw [he]
    by_cases hw : s.power_in_wfi = 0 <;> simp [hw, List.filter]
  · by_cases hw : s.power_in_wfi = 0 <;>
      simp [POWER_CLOCK_IRQHandler, State.store, State.emit, hrem, hdet, hw]
  · by_cases hw : s.power_in_wfi = 0 <;>
      simp [POWER_CLOCK_IRQHandler, State.store, State.emit, hrem, hdet, hw]
  · by_cases hw : s.power_in_wfi = 0 <;>
      simp [POWER_CLOCK_IRQHandler, State.store, State.emit, hrem, hdet, hw, u32]
  · by_cases hw : s.power_in_wfi = 0 <;>
      simp [POWER_CLOCK_IRQHandler, State.store, State.emit, hrem, hdet, hw]

/-- Witness of C6: the cable is removed after `power_init`, outside a wait. -/
theorem usb_removed_side_effects_witness :
    (Act.run board0 .hw_usbremoved init0).POWER_EVENTS_USBREMOVED ≠ 0 ∧
      (Act.run board0 .hw_usbremoved init0).POWER_EVENTS_USBDETECTED = 0 ∧
      (POWER_CLOCK_IRQHandler (Act.run board0 .hw_usbremoved init0)).usb_pc_connected = false ∧
      (POWER_CLOCK_IRQHandler (Act.run board0 .hw_usbremoved init0)).usb_state =
        .USB_DISCONNECTED :=
  ⟨by decide, by decide,
    (usb_removed_side_effects (Act.run board0 .hw_usbremoved init0)
      (by decide) (by decide)).2.2.1,
    (usb_removed_side_effects (Act.run board0 .hw_usbremoved init0)
      (by decide) (by decide)).2.2.2.1⟩

/-! ## The terminal mode -/

theorem power_before_trace (b : Board) (systemoff : Bool) (s : State) :
    (power_before b systemoff s).trace = s.trace ++
      ([ Effect.uart_uninitialize, .gpio_disable_hid_led, .PORT_OFF] ++
        (if systemoff then [ Effect.i2c_deinitialize] else []) ++
        [Effect.store .power_gpiote_enabled (if s.nvic_gpiote then 1 else 0),
          .store .power_gpiote_intenset (u32 s.GPIOTE_INTEN),
          .store .GPIOTE_INTENCLR (u32 s.GPIOTE_INTEN),
          .gpio_cfg b.RESET_BUTTON_IDX .NRF_GPIO_PIN_DIR_INPUT .NRF_GPIO_PIN_INPUT_CONNECT
            b.RESET_BUTTON_PULL .NRF_GPIO_PIN_S0S1
            (if b.RESET_BUTTON_PULL = .NRF_GPIO_PIN_PULLUP then .GPIO_PIN_CNF_SENSE_Low
             else .GPIO_PIN_CNF_SENSE_High),
          .store .GPIOTE_INTENSET
            (u32 (u32 s.GPIOTE_INTEN |||
              (b.GPIOTE_INTENSET_PORT_Set <<< b.GPIOTE_INTENSET_PORT_Pos))),
          .NVIC_EnableIRQ .GPIOTE_IRQn,
          .store .wake_from_usb 0,
          .store .wake_from_reset 0]) := by
  cases systemoff <;> cases h : s.nvic_gpiote <;>
    simp [power_before, run, power_before_body, exec, State.store, State.emit,
      NVIC_EnableIRQ, NVIC_GetEnableIRQ, h, u8]

theorem power_down_eq (b : Board) (s : State) :
    power_down b s = exec b .L153 (power_before b true s) := by
  simp only [power_down, power_systemoff, power_systemoff_body, power_before, run_append]
  rfl

/-- C7: the effects of `power_down` are those of `power_before(true)` followed by the store
of 1 to `NRF_POWER->SYSTEMOFF` as the last effect.  They contain `uart_uninitialize`,
`gpio_disable_hid_led`, `PORT_OFF` and `i2c_deinitialize` exactly once, none of the calls
that only `power_after` makes (`uart_initialize`, `i2c_initialize`, `PORT_SWD_SETUP`,
`gpio_cfg_input`, `NVIC_DisableIRQ`), and no store to `power_in_wfi`, whose value is left as
it was.  The effects of `power_before(false)` contain no `i2c_deinitialize`. -/
theorem power_down_has_no_return_path (b : Board) (s : State) :
    emitted s (power_down b s) =
        emitted s (power_before b true s) ++ [Effect.store .POWER_SYSTEMOFF 1] ∧
      (emitted s (power_down b s)).getLast? = some (Effect.store .POWER_SYSTEMOFF 1) ∧
      (power_down b s).POWER_SYSTEMOFF = 1 ∧
      Effect.uart_uninitialize ∈ emitted s (power_before b true s) ∧
      Effect.gpio_disable_hid_led ∈ emitted s (power_before b true s) ∧
      Effect.PORT_OFF ∈ emitted s (power_before b true s) ∧
      (emitted s (power_before b true s)).count Effect.i2c_deinitialize = 1 ∧
      (emitted s (power_down b s)).count Effect.i2c_deinitialize = 1 ∧
      Effect.uart_initialize ∉ emitted s (power_down b s) ∧
      Effect.i2c_initialize ∉ emitted s (power_down b s) ∧
      Effect.PORT_SWD_SETUP ∉ emitted s (power_down b s) ∧
      (∀ idx pull, Effect.gpio_cfg_input idx pull ∉ emitted s (power_down b s)) ∧
      (∀ irq, Effect.NVIC_DisableIRQ irq ∉ emitted s (power_down b s)) ∧
      (∀ v, Effect.store .power_in_wfi v ∉ emitted s (power_down b s)) ∧
      (power_down b s).power_in_wfi = s.power_in_wfi ∧
      Effect.i2c_deinitialize ∉ emitted s (power_before b false s) := by
  have hb := emitted_append s _ _ (power_before_trace b true s)
  have hf := emitted_append s _ _ (power_before_trace b false s)
  have hd : emitted s (power_down b s) =
      emitted s (power_before b true s) ++ [Effect.store .POWER_SYSTEMOFF 1] := by
    rw [hb]
    apply emitted_append
    rw [power_down_eq]
    simp [exec, State.store, State.emit, power_before_trace, u32]
  refine ⟨hd, ?_, ?_, ?_, ?_, ?_, ?_, ?_, ?_, ?_, ?_, ?_, ?_, ?_, ?_, ?_⟩
  · rw [hd]
    simp
  · rw [power_down_eq]
    simp [exec, State.store, State.emit, u32]
  · rw [hb]
    simp
  · rw [hb]
    simp
  · rw [hb]
    simp
  · rw [hb]
    simp [List.count_cons]
  · rw [hd, hb]
    simp [List.count_cons]
  · rw [hd, hb]
    simp
  · rw [hd, hb]
    simp
  · rw [hd, hb]
    simp
  · intro idx pull
    rw [hd, hb]
    simp
  · intro irq
    rw [hd, hb]
    simp
  · intro v
    rw [hd, hb]
    simp
  · rw [power_down_eq]
    simp [exec, power_before, run, power_before_body, State.store, State.emit, NVIC_EnableIRQ,
      NVIC_GetEnableIRQ]
  · rw [hf]
    simp

/-! ## The flag `power_in_wfi` -/

theorem in_wfi_exec (b : Board) (st : Stmt) (s : State) :
    (exec b st s).power_in_wfi = inWfiAfter st s.power_in_wfi := by
  cases st
  case L128 =>
    simp only [exec, inWfiAfter]
    split_ifs <;> simp [NVIC_DisableIRQ, State.emit]
  all_goals simp [exec, inWfiAfter, State.store, State.emit, NVIC_EnableIRQ, u8]

theorem in_wfi_act (b : Board) (a : Act) (s : State) :
    (a.run b s).power_in_wfi = s.power_in_wfi :=
  congrArg (fun c => c.1) (core_act b a s)

theorem in_wfi_runActs (b : Board) (as : List Act) (s : State) :
    (runActs b as s).power_in_wfi = s.power_in_wfi :=
  congrArg (fun c => c.1) (core_runActs b as s)

theorem in_wfi_actStates (b : Board) (as : List Act) (s t : State)
    (h : t ∈ actStates b as s) : t.power_in_wfi = s.power_in_wfi := by
  induction as generalizing s with
  | nil =>
    simp only [actStates, List.mem_singleton] at h
    rw [h]
  | cons a as ih =>
    simp only [actStates, List.mem_cons] at h
    rcases h with h | h
    · rw [h]
    · rw [ih _ h, in_wfi_act]

/-- If the values of `power_in_wfi` along a statement list satisfy `good`, so does every
state of every interleaved execution of the list. -/
theorem snapshots_in_wfi (b : Board) (good : Option Stmt → Nat → Bool) (p : List Stmt)
    (sched : List (List Act)) (s : State) (h : inWfiOk good p s.power_in_wfi = true)
    (pc : Option Stmt) (t : State) (ht : (pc, t) ∈ snapshots b p sched s) :
    good pc t.power_in_wfi = true := by
  induction p generalizing s sched with
  | nil =>
    simp only [snapshots, List.mem_singleton, Prod.mk.injEq] at ht
    rw [ht.1, ht.2]
    exact h
  | cons st rest ih =>
    simp only [inWfiOk, Bool.and_eq_true] at h
    simp only [snapshots, List.mem_append, List.mem_map, Prod.mk.injEq] at ht
    rcases ht with ⟨u, hu, hpc, hut⟩ | ht
    · rw [← hpc, ← hut, in_wfi_actStates b _ s u hu]
      exact h.1
    · apply ih sched.tail _ _ ht
      rw [in_wfi_exec, in_wfi_runActs]
      exact h.2

theorem inWfiOk_power_wfi (w : Nat) : inWfiOk (inWfiSpec false) power_wfi_body w = true := rfl

theorem inWfiOk_power_wfi_init : inWfiOk (inWfiSpec true) power_wfi_body 0 = true := rfl

theorem snapshots_final (b : Board) (p : List Stmt) (sched : List (List Act)) (s : State) :
    (none, runI b p sched s) ∈ snapshots b p sched s := by
  induction p generalizing s sched with
  | nil => simp [snapshots, runI]
  | cons st rest ih =>
    simp only [snapshots, runI, List.mem_append]
    exact Or.inr (ih _ _)

theorem actStates_start (b : Board) (as : List Act) (s : State) : s ∈ actStates b as s := by
  cases as <;> simp [actStates]

theorem snapshots_at (b : Board) (p : List Stmt) (sched : List (List Act)) (s : State)
    (st : Stmt) (h : st ∈ p) : ∃ t, (some st, t) ∈ snapshots b p sched s := by
  induction p generalizing s sched with
  | nil => simp at h
  | cons x rest ih =>
    simp only [List.mem_cons] at h
    rcases h with h | h
    · refine ⟨s, ?_⟩
      simp only [snapshots, List.mem_append, List.mem_map]
      exact Or.inl ⟨s, actStates_start b _ s, by rw [h]⟩
    · obtain ⟨t, ht⟩ := ih sched.tail (exec b x (runActs b (sched.headD []) s)) h
      refine ⟨t, ?_⟩
      simp only [snapshots, List.mem_append]
      exact Or.inr ht

theorem handlers_trace (b : Board) (u : State) :
    (∀ v, Effect.store .power_in_wfi v ∉ emitted u (POWER_CLOCK_IRQHandler u)) ∧
      (∀ v, Effect.store .power_in_wfi v ∉ emitted u (GPIOTE_IRQHandler b u)) := by
  constructor
  · intro v
    simp only [POWER_CLOCK_IRQHandler]
    split_ifs <;> simp [emitted, State.store, State.emit]
  · intro v
    simp only [GPIOTE_IRQHandler]
    split_ifs <;> simp [emitted, State.store, State.emit]

/-- C8: in every interleaved execution of `power_wfi`, from every state and under every
schedule of hardware events and handler runs, `power_in_wfi` is 1 in every state in which
the main context is at the halt (the next statement is line 161, or the halt has returned
and the next statement is line 162), and 0 in every state at a statement of `power_after`
and on return.  Neither handler changes or stores to `power_in_wfi`.  `power_init` sets it
to 0, and when the cycle starts with it at 0 it is 0 at every statement of `power_before`
and at line 160, so that every state of the cycle outside the halt has it at 0.  Every
statement of the body does occur as a program point of the execution. -/
theorem power_in_wfi_only_across_halt (b : Board) (s : State) (sched : List (List Act)) :
    (∀ pc t, (pc, t) ∈ snapshots b power_wfi_body sched s →
      ((pc = some .L161 ∨ pc = some .L162) → t.power_in_wfi = 1) ∧
      ((pc = none ∨ ∃ st ∈ power_after_body, pc = some st) → t.power_in_wfi = 0) ∧
      (s.power_in_wfi = 0 →
        ((∃ st ∈ power_before_body false, pc = some st) ∨ pc = some .L160) →
          t.power_in_wfi = 0) ∧
      (s.power_in_wfi = 0 → t.power_in_wfi = 0 ∨ pc = some .L161 ∨ pc = some .L162)) ∧
    (∀ st ∈ power_wfi_body, ∃ t, (some st, t) ∈ snapshots b power_wfi_body sched s) ∧
    (none, runI b power_wfi_body sched s) ∈ snapshots b power_wfi_body sched s ∧
    (runI b power_wfi_body sched s).power_in_wfi = 0 ∧
    (∀ u : State, (POWER_CLOCK_IRQHandler u).power_in_wfi = u.power_in_wfi ∧
      (GPIOTE_IRQHandler b u).power_in_wfi = u.power_in_wfi ∧
      (∀ v, Effect.store .power_in_wfi v ∉ emitted u (POWER_CLOCK_IRQHandler u)) ∧
      (∀ v, Effect.store .power_in_wfi v ∉ emitted u (GPIOTE_IRQHandler b u))) ∧
    (∀ s0 : State, (power_init b s0).power_in_wfi = 0) := by
  have hsnap : ∀ pc t, (pc, t) ∈ snapshots b power_wfi_body sched s →
      inWfiSpec false pc t.power_in_wfi = true :=
    fun pc t h => snapshots_in_wfi b _ _ sched s (inWfiOk_power_wfi _) pc t h
  have hsnap0 : s.power_in_wfi = 0 → ∀ pc t, (pc, t) ∈ snapshots b power_wfi_body sched s →
      inWfiSpec true pc t.power_in_wfi = true := by
    intro h0 pc t h
    apply snapshots_in_wfi b _ _ sched s _ pc t h
    rw [h0]
    exact inWfiOk_power_wfi_init
  refine ⟨?_, ?_, snapshots_final b _ sched s, ?_, ?_, ?_⟩
  · intro pc t h
    have g := hsnap pc t h
    refine ⟨?_, ?_, ?_, ?_⟩
    · rintro (rfl | rfl) <;> simpa [inWfiSpec] using g
    · rintro (rfl | ⟨st, hst, rfl⟩)
      · simpa [inWfiSpec] using g
      · simp only [power_after_body, List.mem_cons, List.mem_singleton, List.not_mem_nil,
          or_false] at hst
        rcases hst with rfl | rfl | rfl | rfl | rfl | rfl | rfl <;> simpa [inWfiSpec] using g
    · intro h0 hpc
      have g0 := hsnap0 h0 pc t h
      rcases hpc with ⟨st, hst, rfl⟩ | rfl
      · simp [power_before_body] at hst
        rcases hst with rfl | rfl | rfl | rfl | rfl | rfl | rfl | rfl | rfl | rfl | rfl <;>
          simpa [inWfiSpec] using g0
      · simpa [inWfiSpec] using g0
    · intro h0
      have g0 := hsnap0 h0 pc t h
      cases pc with
      | none => exact Or.inl (by simpa [inWfiSpec] using g0)
      | some st => cases st <;> simp_all [inWfiSpec]
  · intro st hst
    exact snapshots_at b _ sched s st hst
  · have g := hsnap none _ (snapshots_final b _ sched s)
    simpa [inWfiSpec] using g
  · intro u
    exact ⟨congrArg (fun c => c.1) (core_POWER_CLOCK_IRQHandler u),
      congrArg (fun c => c.1) (core_GPIOTE_IRQHandler b u),
      (handlers_trace b u).1, (handlers_trace b u).2⟩
  · intro s0
    simp [power_init, run, power_init_body, exec, State.store, State.emit, NVIC_EnableIRQ, u8]

/-- Witness of C8: a cycle entered after `power_init` and woken by a USB attach returns with
`power_in_wfi` at 0. -/
theorem power_in_wfi_only_across_halt_witness :
    init0.power_in_wfi = 0 ∧
      (runI board0 power_wfi_body (wokenBy [.hw_usbdetected, .POWER_CLOCK_IRQ])
        init0).power_in_wfi = 0 :=
  ⟨by decide,
    (power_in_wfi_only_across_halt board0 init0
      (wokenBy [.hw_usbdetected, .POWER_CLOCK_IRQ])).2.2.2.1⟩

/-! ## Reasoning about interleaved executions -/

theorem runI_append (b : Board) (p q : List Stmt) (sched : List (List Act)) (s : State) :
    runI b (p ++ q) sched s = runI b q (sched.drop p.length) (runI b p sched s) := by
  induction p generalizing s sched with
  | nil => simp [runI]
  | cons st rest ih =>
    rw [List.cons_append]
    simp only [runI, List.length_cons]
    rw [ih]
    cases sched <;> simp

theorem irqLog_append (b : Board) (p q : List Stmt) (sched : List (List Act)) (s : State) :
    irqLog b (p ++ q) sched s =
      irqLog b p sched s ++ irqLog b q (sched.drop p.length) (runI b p sched s) := by
  induction p generalizing s sched with
  | nil => simp [irqLog, runI]
  | cons st rest ih =>
    rw [List.cons_append]
    simp only [irqLog, runI, List.length_cons, List.append_assoc]
    rw [ih]
    cases sched <;> simp

theorem actLog_pc (b : Board) (pc : Stmt) (as : List Act) (s : State)
    (e : Stmt × Act × State) (he : e ∈ actLog b pc as s) : e.1 = pc := by
  induction as generalizing s with
  | nil => simp [actLog] at he
  | cons a as ih =>
    simp only [actLog, List.mem_cons] at he
    rcases he with he | he
    · rw [he]
    · exact ih _ he

theorem irqLog_pc_mem (b : Board) (p : List Stmt) (sched : List (List Act)) (s : State)
    (e : Stmt × Act × State) (he : e ∈ irqLog b p sched s) : e.1 ∈ p := by
  induction p generalizing s sched with
  | nil => simp [irqLog] at he
  | cons st rest ih =>
    simp only [irqLog, List.mem_append] at he
    rcases he with he | he
    · rw [actLog_pc b st _ s e he]
      exact List.mem_cons_self _ _
    · exact List.mem_cons_of_mem _ (ih _ _ he)

theorem actLog_sub_actStates (b : Board) (pc : Stmt) (as : List Act) (s : State)
    (e : Stmt × Act × State) (he : e ∈ actLog b pc as s) : e.2.2 ∈ actStates b as s := by
  induction as generalizing s with
  | nil => simp [actLog] at he
  | cons a as ih =>
    simp only [actLog, List.mem_cons] at he
    simp only [actStates, List.mem_cons]
    rcases he with he | he
    · rw [he]
      exact Or.inl rfl
    · exact Or.inr (ih _ he)

/-- Every state in which an act starts is a state of the execution, at the statement the
act preempts. -/
theorem irqLog_sub_snapshots (b : Board) (p : List Stmt) (sched : List (List Act)) (s : State)
    (e : Stmt × Act × State) (he : e ∈ irqLog b p sched s) :
    (some e.1, e.2.2) ∈ snapshots b p sched s := by
  induction p generalizing s sched with
  | nil => simp [irqLog] at he
  | cons st rest ih =>
    simp only [irqLog, List.mem_append] at he
    simp only [snapshots, List.mem_append, List.mem_map, Prod.mk.injEq]
    rcases he with he | he
    · exact Or.inl ⟨e.2.2, actLog_sub_actStates b st _ s e he,
        by rw [actLog_pc b st _ s e he], rfl⟩
    · exact Or.inr (ih _ _ he)

theorem runActs_preserves (b : Board) (P : State → Prop)
    (hact : ∀ a t, P t → P (Act.run b a t)) (as : List Act) (s : State) (h : P s) :
    P (runActs b as s) := by
  induction as generalizing s with
  | nil => exact h
  | cons a as ih => exact ih _ (hact a s h)

theorem runI_preserves (b : Board) (P : State → Prop)
    (hact : ∀ a t, P t → P (Act.run b a t)) (q : List Stmt)
    (hstmt : ∀ st ∈ q, ∀ t, P t → P (exec b st t)) (sched : List (List Act)) (s : State)
    (h : P s) : P (runI b q sched s) := by
  induction q generalizing s sched with
  | nil => exact h
  | cons st rest ih =>
    simp only [runI]
    apply ih (fun x hx => hstmt x (List.mem_cons_of_mem _ hx))
    exact hstmt st (List.mem_cons_self _ _) _ (runActs_preserves b P hact _ s h)

theorem actLog_entry (b : Board) (P : State → Prop)
    (hact : ∀ a t, P t → P (Act.run b a t)) (pc : Stmt) (as : List Act) (s : State)
    (e : Stmt × Act × State) (he : e ∈ actLog b pc as s) (hP : P (e.2.1.run b e.2.2)) :
    P (runActs b as s) := by
  induction as generalizing s with
  | nil => simp [actLog] at he
  | cons a as ih =>
    simp only [actLog, List.mem_cons] at he
    rcases he with he | he
    · rw [he] at hP
      exact runActs_preserves b P hact as _ hP
    · exact ih _ he

/-- A property that an act of the execution establishes, and that every later act and every
statement of the list preserves, holds at the end. -/
theorem runI_of_log_entry (b : Board) (P : State → Prop)
    (hact : ∀ a t, P t → P (Act.run b a t)) (q : List Stmt)
    (hstmt : ∀ st ∈ q, ∀ t, P t → P (exec b st t)) (sched : List (List Act)) (s : State)
    (e : Stmt × Act × State) (he : e ∈ irqLog b q sched s) (hP : P (e.2.1.run b e.2.2)) :
    P (runI b q sched s) := by
  induction q generalizing s sched with
  | nil => simp [irqLog] at he
  | cons st rest ih =>
    simp only [irqLog, List.mem_append] at he
    simp only [runI]
    have hrest : ∀ x ∈ rest, ∀ t, P t → P (exec b x t) :=
      fun x hx => hstmt x (List.mem_cons_of_mem _ hx)
    rcases he with he | he
    · apply runI_preserves b P hact rest hrest
      exact hstmt st (List.mem_cons_self _ _) _ (actLog_entry b P hact st _ s e he hP)
    · exact ih hrest _ _ he

theorem actLog_invariant (b : Board) (Allowed : Act → State → Prop) (P : State → Prop)
    (hact : ∀ a t, P t → Allowed a t → P (Act.run b a t)) (pc : Stmt) (as : List Act)
    (s : State) (h : P s) (hall : ∀ e ∈ actLog b pc as s, Allowed e.2.1 e.2.2) :
    P (runActs b as s) := by
  induction as generalizing s with
  | nil => exact h
  | cons a as ih =>
    apply ih (a.run b s)
    · exact hact a s h (hall (pc, a, s) (by simp [actLog]))
    · intro e he
      exact hall e (by simp [actLog, he])

/-- An invariant indexed by the statements still to execute holds at the end when every
statement carries it over and every act that occurs is allowed and preserves it. -/
theorem runI_invariant (b : Board) (Allowed : Act → State → Prop)
    (Inv : List Stmt → State → Prop)
    (hact : ∀ p a t, Inv p t → Allowed a t → Inv p (Act.run b a t))
    (hstmt : ∀ st rest t, Inv (st :: rest) t → Inv rest (exec b st t))
    (p : List Stmt) (sched : List (List Act)) (s : State) (h : Inv p s)
    (hall : ∀ e ∈ irqLog b p sched s, Allowed e.2.1 e.2.2) : Inv [] (runI b p sched s) := by
  induction p generalizing s sched with
  | nil => exact h
  | cons st rest ih =>
    simp only [runI]
    apply ih
    · apply hstmt
      apply actLog_invariant b Allowed (Inv (st :: rest)) (hact _) st _ s h
      intro e he
      exact hall e (by simp only [irqLog, List.mem_append]; exact Or.inl he)
    · intro e he
      exact hall e (by simp only [irqLog, List.mem_append]; exact Or.inr he)

/-! ## Wake flags across a wait cycle -/

theorem exec_wake_from_usb (b : Board) (st : Stmt) (t : State) (h : st ≠ .L121) :
    (exec b st t).wake_from_usb = t.wake_from_usb := by
  cases st
  case L121 => exact absurd rfl h
  case L128 =>
    simp only [exec]
    split_ifs <;> simp [NVIC_DisableIRQ, State.emit]
  all_goals simp [exec, State.store, State.emit, NVIC_EnableIRQ]

theorem exec_wake_from_reset (b : Board) (st : Stmt) (t : State) (h : st ≠ .L122) :
    (exec b st t).wake_from_reset = t.wake_from_reset := by
  cases st
  case L122 => exact absurd rfl h
  case L128 =>
    simp only [exec]
    split_ifs <;> simp [NVIC_DisableIRQ, State.emit]
  all_goals simp [exec, State.store, State.emit, NVIC_EnableIRQ]

theorem POWER_CLOCK_keeps_wake_from_reset (s : State) :
    (POWER_CLOCK_IRQHandler s).wake_from_reset = s.wake_from_reset := by
  simp only [POWER_CLOCK_IRQHandler]
  split_ifs <;> simp [State.store, State.emit]

theorem GPIOTE_keeps_wake_from_usb (b : Board) (s : State) :
    (GPIOTE_IRQHandler b s).wake_from_usb = s.wake_from_usb := by
  simp only [GPIOTE_IRQHandler]
  split_ifs <;> simp [State.store, State.emit]

theorem POWER_CLOCK_outside_wait (s : State) (h : s.power_in_wfi = 0) :
    (POWER_CLOCK_IRQHandler s).wake_from_usb = s.wake_from_usb := by
  simp only [POWER_CLOCK_IRQHandler]
  split_ifs <;> simp_all [State.store, State.emit]

theorem GPIOTE_outside_wait (b : Board) (s : State) (h : s.power_in_wfi = 0) :
    (GPIOTE_IRQHandler b s).wake_from_reset = s.wake_from_reset := by
  simp only [GPIOTE_IRQHandler]
  split_ifs <;> simp_all [State.store, State.emit]

theorem POWER_CLOCK_records_wake (s : State) (hw : s.power_in_wfi ≠ 0)
    (hl : usbEventLatched s = true) : (POWER_CLOCK_IRQHandler s).wake_from_usb = 1 := by
  simp only [usbEventLatched, Bool.or_eq_true, bne_iff_ne, ne_eq] at hl
  simp only [POWER_CLOCK_IRQHandler]
  split_ifs <;> simp_all [State.store, State.emit, u8]

theorem GPIOTE_records_wake (b : Board) (s : State) (hw : s.power_in_wfi ≠ 0)
    (hl : resetEventLatched b s = true) : (GPIOTE_IRQHandler b s).wake_from_reset = 1 := by
  simp only [resetEventLatched, Bool.and_eq_true, bne_iff_ne, ne_eq] at hl
  simp only [GPIOTE_IRQHandler]
  split_ifs <;> simp_all [State.store, State.emit, u8, reset_button_latched]

theorem act_keeps_wake_from_usb_set (b : Board) (a : Act) (t : State)
    (h : t.wake_from_usb = 1) : (Act.run b a t).wake_from_usb = 1 := by
  cases a with
  | POWER_CLOCK_IRQ =>
    simp only [Act.run, POWER_CLOCK_IRQHandler]
    split_ifs <;> simp_all [State.store, State.emit, u8]
  | GPIOTE_IRQ =>
    simp only [Act.run]
    rw [GPIOTE_keeps_wake_from_usb, h]
  | _ => simpa [Act.run] using h

theorem act_keeps_wake_from_reset_set (b : Board) (a : Act) (t : State)
    (h : t.wake_from_reset = 1) : (Act.run b a t).wake_from_reset = 1 := by
  cases a with
  | POWER_CLOCK_IRQ =>
    simp only [Act.run]
    rw [POWER_CLOCK_keeps_wake_from_reset, h]
  | GPIOTE_IRQ =>
    simp only [Act.run, GPIOTE_IRQHandler]
    split_ifs <;> simp_all [State.store, State.emit, u8]
  | _ => simpa [Act.run] using h

theorem power_wfi_body_split :
    power_wfi_body =
      (power_before_body false ++ [.L160]) ++ ([.L161, .L162] ++ power_after_body) := rfl

/-- A property established by an act that preempts the halt, and kept by every act and by
the statements from the halt on, holds when `power_wfi` returns. -/
theorem power_wfi_of_halt_entry (b : Board) (P : State → Prop)
    (hact : ∀ a t, P t → P (Act.run b a t))
    (hstmt : ∀ st ∈ [Stmt.L161, .L162] ++ power_after_body, ∀ t, P t → P (exec b st t))
    (sched : List (List Act)) (s : State) (e : Stmt × Act × State)
    (he : e ∈ irqLog b power_wfi_body sched s) (hpc : e.1 = .L161 ∨ e.1 = .L162)
    (hP : P (e.2.1.run b e.2.2)) : P (runI b power_wfi_body sched s) := by
  rw [power_wfi_body_split, irqLog_append] at he
  rw [power_wfi_body_split, runI_append]
  rcases List.mem_append.mp he with h | h
  · have hm := irqLog_pc_mem b _ _ _ e h
    rcases hpc with h1 | h1 <;> rw [h1] at hm <;> simp [power_before_body] at hm
  · exact runI_of_log_entry b P hact _ hstmt _ _ e h hP

/-- An act that preempts the halt starts with `power_in_wfi` at 1. -/
theorem halt_entry_in_wfi (b : Board) (sched : List (List Act)) (s : State)
    (e : Stmt × Act × State) (he : e ∈ irqLog b power_wfi_body sched s)
    (hpc : e.1 = .L161 ∨ e.1 = .L162) : e.2.2.power_in_wfi = 1 := by
  have g := snapshots_in_wfi b (inWfiSpec false) _ sched s (inWfiOk_power_wfi _) _ _
    (irqLog_sub_snapshots b _ sched s e he)
  rcases hpc with h1 | h1 <;> rw [h1] at g <;> simpa [inWfiSpec] using g

theorem wake_from_reset_stays_clear (b : Board) (sched : List (List Act)) (s : State)
    (hall : ∀ e ∈ irqLog b power_wfi_body sched s,
      e.2.1 = .GPIOTE_IRQ → e.2.2.power_in_wfi = 0) :
    (runI b power_wfi_body sched s).wake_from_reset = 0 := by
  have h := runI_invariant b (fun a t => a = .GPIOTE_IRQ → t.power_in_wfi = 0)
    (fun rest t => Stmt.L122 ∉ rest → t.wake_from_reset = 0)
    (by
      intro p a t hinv hal hm
      cases a with
      | POWER_CLOCK_IRQ =>
        simp only [Act.run]
        rw [POWER_CLOCK_keeps_wake_from_reset]
        exact hinv hm
      | GPIOTE_IRQ =>
        simp only [Act.run]
        rw [GPIOTE_outside_wait b t (hal rfl)]
        exact hinv hm
      | _ => simpa [Act.run] using hinv hm)
    (by
      intro st rest t hinv hm
      by_cases hst : st = .L122
      · subst hst
        simp [exec, State.store, State.emit, u8]
      · rw [exec_wake_from_reset b st t hst]
        apply hinv
        simp only [List.mem_cons, not_or]
        exact ⟨fun h => hst h.symm, hm⟩)
    power_wfi_body sched s (by intro hm; exact absurd (by decide) hm) hall
  exact h (List.not_mem_nil _)

theorem wake_from_usb_stays_clear (b : Board) (sched : List (List Act)) (s : State)
    (hall : ∀ e ∈ irqLog b power_wfi_body sched s,
      e.2.1 = .POWER_CLOCK_IRQ → e.2.2.power_in_wfi = 0) :
    (runI b power_wfi_body sched s).wake_from_usb = 0 := by
  have h := runI_invariant b (fun a t => a = .POWER_CLOCK_IRQ → t.power_in_wfi = 0)
    (fun rest t => Stmt.L121 ∉ rest → t.wake_from_usb = 0)
    (by
      intro p a t hinv hal hm
      cases a with
      | POWER_CLOCK_IRQ =>
        simp only [Act.run]
        rw [POWER_CLOCK_outside_wait t (hal rfl)]
        exact hinv hm
      | GPIOTE_IRQ =>
        simp only [Act.run]
        rw [GPIOTE_keeps_wake_from_usb]
        exact hinv hm
      | _ => simpa [Act.run] using hinv hm)
    (by
      intro st rest t hinv hm
      by_cases hst : st = .L121
      · subst hst
        simp [exec, State.store, State.emit, u8]
      · rw [exec_wake_from_usb b st t hst]
        apply hinv
        simp only [List.mem_cons, not_or]
        exact ⟨fun h => hst h.symm, hm⟩)
    power_wfi_body sched s (by intro hm; exact absurd (by decide) hm) hall
  exact h (List.not_mem_nil _)

theorem mem_runsInWait (b : Board) (p : List Stmt) (sched : List (List Act)) (s : State)
    (e : Stmt × Act × State) (he : e ∈ irqLog b p sched s) (hh : e.2.1.isHandler = true)
    (hw : e.2.2.power_in_wfi ≠ 0) : e ∈ runsInWait b p sched s := by
  simp [runsInWait, List.mem_filter, he, hh, hw]

/-- C3: take any pre-state (stale wake flags included) and any schedule of a wait cycle
`power_wfi`.  If every handler run that starts while `power_in_wfi` is set is a run of
`POWER_CLOCK_IRQHandler` with a USB event latched, and such a run preempts the halt, the
cycle ends with `wake_from_usb = 1` and `wake_from_reset = 0`.  If every such handler run
is a run of `GPIOTE_IRQHandler` with `EVENTS_PORT` and the latch bit of the reset button
set, and such a run preempts the halt, the cycle ends with `wake_from_reset = 1` and
`wake_from_usb = 0`. -/
theorem wake_source_exclusive (b : Board) (s : State) (sched : List (List Act)) :
    ((∀ e ∈ runsInWait b power_wfi_body sched s,
        e.2.1 = .POWER_CLOCK_IRQ ∧ usbEventLatched e.2.2 = true) →
      (∃ e ∈ irqLog b power_wfi_body sched s,
        (e.1 = .L161 ∨ e.1 = .L162) ∧ e.2.1 = .POWER_CLOCK_IRQ) →
      (runI b power_wfi_body sched s).wake_from_usb = 1 ∧
        (runI b power_wfi_body sched s).wake_from_reset = 0) ∧
    ((∀ e ∈ runsInWait b power_wfi_body sched s,
        e.2.1 = .GPIOTE_IRQ ∧ resetEventLatched b e.2.2 = true) →
      (∃ e ∈ irqLog b power_wfi_body sched s,
        (e.1 = .L161 ∨ e.1 = .L162) ∧ e.2.1 = .GPIOTE_IRQ) →
      (runI b power_wfi_body sched s).wake_from_reset = 1 ∧
        (runI b power_wfi_body sched s).wake_from_usb = 0) := by
  constructor
  · rintro H1 ⟨e, he, hpc, ha⟩
    have hg := halt_entry_in_wfi b sched s e he hpc
    have hin := mem_runsInWait b _ sched s e he (by rw [ha]; rfl) (by rw [hg]; decide)
    constructor
    · apply power_wfi_of_halt_entry b (fun t => t.wake_from_usb = 1)
        (act_keeps_wake_from_usb_set b) _ sched s e he hpc
      · rw [ha]
        exact POWER_CLOCK_records_wake _ (by rw [hg]; decide) (H1 e hin).2
      · intro st hst t ht
        rw [exec_wake_from_usb b st t (by rintro rfl; simp [power_after_body] at hst)]
        exact ht
    · apply wake_from_reset_stays_clear
      intro x hx hxa
      by_contra hw
      have hx1 := (H1 x (mem_runsInWait b _ sched s x hx (by rw [hxa]; rfl) hw)).1
      rw [hxa] at hx1
      exact Act.noConfusion hx1
  · rintro H1 ⟨e, he, hpc, ha⟩
    have hg := halt_entry_in_wfi b sched s e he hpc
    have hin := mem_runsInWait b _ sched s e he (by rw [ha]; rfl) (by rw [hg]; decide)
    constructor
    · apply power_wfi_of_halt_entry b (fun t => t.wake_from_reset = 1)
        (act_keeps_wake_from_reset_set b) _ sched s e he hpc
      · rw [ha]
        exact GPIOTE_records_wake b _ (by rw [hg]; decide) (H1 e hin).2
      · intro st hst t ht
        rw [exec_wake_from_reset b st t (by rintro rfl; simp [power_after_body] at hst)]
        exact ht
    · apply wake_from_usb_stays_clear
      intro x hx hxa
      by_contra hw
      have hx1 := (H1 x (mem_runsInWait b _ sched s x hx (by rw [hxa]; rfl) hw)).1
      rw [hxa] at hx1
      exact Act.noConfusion hx1

/-- Witness of C3, from the state after `power_init` with both wake flags stale: a cycle
woken by a USB attach alone, and a cycle woken by the reset button (pin 6) alone. -/
theorem wake_source_exclusive_witness :
    ((∀ e ∈ runsInWait board0 power_wfi_body (wokenBy [.hw_usbdetected, .POWER_CLOCK_IRQ]) stale0,
        e.2.1 = .POWER_CLOCK_IRQ ∧ usbEventLatched e.2.2 = true) ∧
      (runI board0 power_wfi_body (wokenBy [.hw_usbdetected, .POWER_CLOCK_IRQ])
        stale0).wake_from_usb = 1 ∧
      (runI board0 power_wfi_body (wokenBy [.hw_usbdetected, .POWER_CLOCK_IRQ])
        stale0).wake_from_reset = 0) ∧
    ((∀ e ∈ runsInWait board0 power_wfi_body (wokenBy [.hw_port 0x40, .GPIOTE_IRQ]) stale0,
        e.2.1 = .GPIOTE_IRQ ∧ resetEventLatched board0 e.2.2 = true) ∧
      (runI board0 power_wfi_body (wokenBy [.hw_port 0x40, .GPIOTE_IRQ])
        stale0).wake_from_reset = 1 ∧
      (runI board0 power_wfi_body (wokenBy [.hw_port 0x40, .GPIOTE_IRQ])
        stale0).wake_from_usb = 0) :=
  ⟨⟨by decide,
    (wake_source_exclusive board0 stale0 (wokenBy [.hw_usbdetected, .POWER_CLOCK_IRQ])).1
      (by decide) (by decide)⟩,
   ⟨by decide,
    (wake_source_exclusive board0 stale0 (wokenBy [.hw_port 0x40, .GPIOTE_IRQ])).2
      (by decide) (by decide)⟩⟩

/-! ## The window between arming and the halt -/

theorem hw_act_frame (b : Board) (a : Act) (t : State) (h : a.isHandler = false) :
    (Act.run b a t).wake_from_usb = t.wake_from_usb ∧
      (Act.run b a t).wake_from_reset = t.wake_from_reset := by
  cases a <;> simp_all [Act.run, Act.isHandler]

theorem hw_acts_frame (b : Board) (hw : List Act) (t : State)
    (h : ∀ a ∈ hw, a.isHandler = false) :
    (runActs b hw t).wake_from_usb = t.wake_from_usb ∧
      (runActs b hw t).wake_from_reset = t.wake_from_reset ∧
      (runActs b hw t).power_in_wfi = t.power_in_wfi := by
  refine ⟨?_, ?_, in_wfi_runActs b hw t⟩
  · induction hw generalizing t with
    | nil => rfl
    | cons a as ih =>
      have hr : runActs b (a :: as) t = runActs b as (a.run b t) := rfl
      rw [hr, ih _ (fun x hx => h x (List.mem_cons_of_mem _ hx)),
        (hw_act_frame b a t (h a (List.mem_cons_self _ _))).1]
  · induction hw generalizing t with
    | nil => rfl
    | cons a as ih =>
      have hr : runActs b (a :: as) t = runActs b as (a.run b t) := rfl
      rw [hr, ih _ (fun x hx => h x (List.mem_cons_of_mem _ hx)),
        (hw_act_frame b a t (h a (List.mem_cons_self _ _))).2]

theorem power_before_wake_flags (b : Board) (s : State) :
    (power_before b false s).wake_from_usb = 0 ∧
      (power_before b false s).wake_from_reset = 0 ∧
      (power_before b false s).power_in_wfi = s.power_in_wfi := by
  simp [power_before, run, power_before_body, exec, State.store, State.emit,
    NVIC_EnableIRQ, NVIC_GetEnableIRQ, u8]

theorem POWER_CLOCK_clears_events (s : State) :
    (POWER_CLOCK_IRQHandler s).POWER_EVENTS_USBDETECTED = 0 ∧
      (POWER_CLOCK_IRQHandler s).POWER_EVENTS_USBREMOVED = 0 := by
  simp only [POWER_CLOCK_IRQHandler]
  split_ifs <;> simp_all [State.store, State.emit, u8, u32]

theorem GPIOTE_clears_event (b : Board) (s : State) :
    (GPIOTE_IRQHandler b s).GPIOTE_EVENTS_PORT = 0 ∧
      (GPIOTE_IRQHandler b s).LATCH = s.LATCH := by
  simp only [GPIOTE_IRQHandler]
  split_ifs <;> simp_all [State.store, State.emit, u8, u32]

/-- C5 as stated fails on the code: after `power_init`, `power_before(false)` returns with
`power_in_wfi` still 0; a USB attach is then latched and `POWER_CLOCK_IRQHandler` runs before
line 160.  Afterwards `wake_from_usb` is not 1 and `EVENTS_USBDETECTED` is no longer set:
neither the wake flag nor the latched bit keeps the event. -/
theorem wake_dropped_before_line_160 :
    (power_before board0 false init0).power_in_wfi = 0 ∧
      usbEventLatched (Act.run board0 .hw_usbdetected (power_before board0 false init0)) = true ∧
      ¬ ((POWER_CLOCK_IRQHandler
            (Act.run board0 .hw_usbdetected (power_before board0 false init0))).wake_from_usb = 1 ∨
          (POWER_CLOCK_IRQHandler
            (Act.run board0 .hw_usbdetected
              (power_before board0 false init0))).POWER_EVENTS_USBDETECTED ≠ 0) := by
  decide

/-- C5, amended: take a state reached by `power_before(false)` returning with `power_in_wfi`
still 0, followed by any hardware events.  A handler that runs there, before line 160,
clears the event bit it tests (`EVENTS_USBDETECTED`, `EVENTS_USBREMOVED`, `EVENTS_PORT`) and
leaves both wake flags 0; `GPIOTE_IRQHandler` leaves the `LATCH` register as it was.  The
event is recorded in its wake flag when the handler runs after line 160 has set `power_in_wfi`:
then a latched USB event gives `wake_from_usb = 1`, and a latched port event with the latch
bit of the reset button gives `wake_from_reset = 1`. -/
theorem wake_recorded_only_after_line_160 (b : Board) (s : State) (hw : List Act)
    (h0 : s.power_in_wfi = 0) (hhw : ∀ a ∈ hw, a.isHandler = false) :
    (runActs b hw (power_before b false s)).power_in_wfi = 0 ∧
      (POWER_CLOCK_IRQHandler (runActs b hw (power_before b false s))).wake_from_usb = 0 ∧
      (POWER_CLOCK_IRQHandler (runActs b hw (power_before b false s))).wake_from_reset = 0 ∧
      (POWER_CLOCK_IRQHandler
        (runActs b hw (power_before b false s))).POWER_EVENTS_USBDETECTED = 0 ∧
      (POWER_CLOCK_IRQHandler
        (runActs b hw (power_before b false s))).POWER_EVENTS_USBREMOVED = 0 ∧
      (GPIOTE_IRQHandler b (runActs b hw (power_before b false s))).wake_from_usb = 0 ∧
      (GPIOTE_IRQHandler b (runActs b hw (power_before b false s))).wake_from_reset = 0 ∧
      (GPIOTE_IRQHandler b (runActs b hw (power_before b false s))).GPIOTE_EVENTS_PORT = 0 ∧
      (GPIOTE_IRQHandler b (runActs b hw (power_before b false s))).LATCH =
        (runActs b hw (power_before b false s)).LATCH ∧
      (usbEventLatched (runActs b hw (power_before b false s)) = true →
        (POWER_CLOCK_IRQHandler
          (exec b .L160 (runActs b hw (power_before b false s)))).wake_from_usb = 1) ∧
      (resetEventLatched b (runActs b hw (power_before b false s)) = true →
        (GPIOTE_IRQHandler b
          (exec b .L160 (runActs b hw (power_before b false s)))).wake_from_reset = 1) := by
  obtain ⟨hu, hr, hg⟩ := hw_acts_frame b hw (power_before b false s) hhw
  obtain ⟨bu, br, bg⟩ := power_before_wake_flags b s
  have hg0 : (runActs b hw (power_before b false s)).power_in_wfi = 0 := by
    rw [hg, bg, h0]
  refine ⟨hg0, ?_, ?_, ?_, ?_, ?_, ?_, ?_, ?_, ?_, ?_⟩
  · rw [POWER_CLOCK_outside_wait _ hg0, hu, bu]
  · rw [POWER_CLOCK_keeps_wake_from_reset, hr, br]
  · exact (POWER_CLOCK_clears_events _).1
  · exact (POWER_CLOCK_clears_events _).2
  · rw [GPIOTE_keeps_wake_from_usb, hu, bu]
  · rw [GPIOTE_outside_wait b _ hg0, hr, br]
  · exact (GPIOTE_clears_event b _).1
  · exact (GPIOTE_clears_event b _).2
  · intro hl
    apply POWER_CLOCK_records_wake
    · simp [exec, State.store, State.emit, u8]
    · simpa [exec, State.store, State.emit, usbEventLatched] using hl
  · intro hl
    apply GPIOTE_records_wake
    · simp [exec, State.store, State.emit, u8]
    · simpa [exec, State.store, State.emit, resetEventLatched, reset_button_latched] using hl

/-- Witness of the amended C5: a USB attach latched right after `power_before(false)`. -/
theorem wake_recorded_only_after_line_160_witness :
    init0.power_in_wfi = 0 ∧
      usbEventLatched (runActs board0 [.hw_usbdetected] (power_before board0 false init0))
        = true ∧
      (POWER_CLOCK_IRQHandler
        (runActs board0 [.hw_usbdetected] (power_before board0 false init0))).wake_from_usb
        = 0 ∧
      (POWER_CLOCK_IRQHandler
        (exec board0 .L160
          (runActs board0 [.hw_usbdetected] (power_before board0 false init0)))).wake_from_usb
        = 1 :=
  ⟨by decide, by decide,
    (wake_recorded_only_after_line_160 board0 init0 [.hw_usbdetected] (by decide)
      (by decide)).2.1,
    (wake_recorded_only_after_line_160 board0 init0 [.hw_usbdetected] (by decide)
      (by decide)).2.2.2.2.2.2.2.2.2.1 (by decide)⟩

end Power
